import Mathlib

/-!
Shallow embedding of `gnu_elpa_mirror.py`, the GNU ELPA mirroring script,
together with theorems settling the spec's claims against it.

The script is procedural orchestration around `subprocess.run` and
`shutil`; we embed it at two levels:

* a content-level model of the per-repository sync
  (`delete_contents`, the copy loop of `mirror`, `stage_and_commit`,
  the manifest regeneration), operating on explicit directory listings;
* an invocation-trace model `mirrorTrace` that records, in order, every
  `subprocess.run` call the `mirror` procedure issues, parameterised
  by an environment oracle supplying what the script reads from the
  outside world (directory existence, command outputs, staged-ness).
-/

namespace GnuElpaMirror

/-- Python exceptions that the modelled library calls can raise. -/
inductive PyErr where
  | fileNotFoundError
  | isADirectoryError
deriving DecidableEq, Repr

/-- A leaf inside a directory tree: a regular file with its byte content,
or a symbolic link whose target resolves to a file with the given
content.  Subtrees are flattened to (relative path, leaf) lists. -/
inductive Leaf where
  | file (content : String)
  | linkFile (target content : String)
deriving DecidableEq, Repr

/-- A directory subtree, flattened: relative path components paired with
the leaf found there. -/
abbrev Subtree := List (List String × Leaf)

/-- A top-level entry of the upstream package directory, as
`pathlib.Path.iterdir` presents it.  Symbolic links carry their target
and the resolved view of the target (file content, directory subtree,
or nothing when the link is broken). -/
inductive SrcEntry where
  | file (name content : String)
  | dir (name : String) (sub : Subtree)
  | linkFile (name target content : String)
  | linkDir (name target : String) (sub : Subtree)
  | linkBroken (name target : String)
deriving DecidableEq, Repr

/-- A top-level entry of the destination working directory after the
copy step.  The `symlink` constructor exists so that "the destination
holds a symbolic link" is expressible; the copy functions below, which
embed `shutil.copyfile` / `shutil.copytree` with default arguments,
never produce it. -/
inductive DstEntry where
  | file (name content : String)
  | dir (name : String) (sub : Subtree)
  | symlink (name target : String)
deriving DecidableEq, Repr

/-- `entry.name` for an upstream entry. -/
def srcName : SrcEntry → String
  | .file n _ => n
  | .dir n _ => n
  | .linkFile n _ _ => n
  | .linkDir n _ _ => n
  | .linkBroken n _ => n

/-- `entry.name` for a destination entry. -/
def dstName : DstEntry → String
  | .file n _ => n
  | .dir n _ => n
  | .symlink n _ => n

/-- Whether a destination entry is a symbolic link. -/
def isSymlinkDst : DstEntry → Bool
  | .symlink _ _ => true
  | _ => false

/-- `pathlib.Path.is_dir()`: true for directories and for symbolic
links that resolve to directories (the call follows links). -/
def pyIsDir : SrcEntry → Bool
  | .dir _ _ => true
  | .linkDir _ _ _ => true
  | _ => false

/-- `pathlib.Path.is_symlink()`. -/
def pyIsSymlink : SrcEntry → Bool
  | .linkFile _ _ _ => true
  | .linkDir _ _ _ => true
  | .linkBroken _ _ => true
  | _ => false

/-- `shutil.copytree` (default `symlinks=False`) follows symbolic links
inside the tree, materialising each as a regular file with the
target's content. -/
def resolveLeaf : Leaf → Leaf
  | .file c => .file c
  | .linkFile _ c => .file c

/-- `shutil.copytree(source, target)` with default arguments: the whole
subtree is copied with internal symbolic links resolved. -/
def copytree (sub : Subtree) : Subtree :=
  sub.map (fun p => (p.1, resolveLeaf p.2))

/-- `shutil.copyfile(source, target)` with default arguments: follows a
symbolic-link source and copies the pointed-to content into a fresh
regular file; raises `IsADirectoryError` when the source (or its link
target) is a directory and `FileNotFoundError` on a broken link. -/
def copyfile : SrcEntry → Except PyErr DstEntry
  | .file n c => .ok (.file n c)
  | .linkFile n _ c => .ok (.file n c)
  | .dir _ _ => .error .isADirectoryError
  | .linkDir _ _ _ => .error .isADirectoryError
  | .linkBroken _ _ => .error .fileNotFoundError

/-- One iteration of the copy loop, `gnu_elpa_mirror.py` lines 196-199:
`if source.is_dir() and not source.is_symlink(): shutil.copytree(...)
else: shutil.copyfile(...)`.  Only a genuine directory (`pyIsDir`
and not `pyIsSymlink`) takes the `copytree` branch. -/
def copyEntry : SrcEntry → Except PyErr DstEntry
  | .dir n sub => .ok (.dir n (copytree sub))
  | e => copyfile e

/-- The copy loop of `mirror`, lines 192-199: iterate over the upstream
package directory's entries, skip `.git`, and copy each remaining
entry into the (previously emptied) destination.  Returns the list of
entries the destination holds afterwards (besides its own `.git`). -/
def updatePackage (upstream : List SrcEntry) : Except PyErr (List DstEntry) :=
  (upstream.filter (fun e => srcName e != ".git")).mapM copyEntry

/-- An entry of a destination working directory as seen by
`delete_contents` (name plus the two `pathlib` predicates it
consults; `isDir` follows symbolic links). -/
structure DEntry where
  name : String
  isDir : Bool
  isSymlink : Bool
deriving DecidableEq, Repr

/-- What `delete_contents` does with one entry. -/
inductive DelAction where
  | skip
  | rmtree
  | unlink
deriving DecidableEq, Repr

/-- The branch taken by `delete_contents` (lines 62-71) for one entry:
`.git` is skipped; a directory that is not a symbolic link is removed
with `shutil.rmtree`; everything else — including a symbolic link to a
directory — is removed with `Path.unlink`, which does not follow the
link. -/
def deleteAction (e : DEntry) : DelAction :=
  if e.name = ".git" then .skip
  else if e.isDir && !e.isSymlink then .rmtree
  else .unlink

/-- `entry.unlink()` wrapped in `try ... except FileNotFoundError:
pass` (lines 68-71): an entry already absent at deletion time is a
no-op, not an error. -/
def tryUnlink (present : Bool) : Except PyErr Unit :=
  match (if present then Except.ok () else Except.error PyErr.fileNotFoundError :
      Except PyErr Unit) with
  | .ok u => .ok u
  | .error .fileNotFoundError => .ok ()
  | .error e => .error e

/-- Processing of one entry by `delete_contents`. -/
def deleteEntry (present : String → Bool) (e : DEntry) : Except PyErr Unit :=
  match deleteAction e with
  | .skip => .ok ()
  | .rmtree => .ok ()
  | .unlink => tryUnlink (present e.name)

/-- `delete_contents(path)` (lines 61-71): iterate over the listing,
delete everything except `.git`, and return the listing left behind.
`present` tells whether a file still exists when its `unlink` runs. -/
def delete_contents (listing : List DEntry) (present : String → Bool) :
    Except PyErr (List DEntry) := do
  let _ ← listing.mapM (deleteEntry present)
  pure (listing.filter (fun e => e.name == ".git"))

/-- The committed content of a mirror repository (the tree of its
`HEAD` commit, i.e. its tracked files). -/
structure MirrorRepo where
  head : List DstEntry
deriving DecidableEq, Repr

/-- `stage_and_commit` (lines 73-101) at the content level: after
`git add --all --force` the index equals the worktree, so
`git diff --cached --quiet` exits nonzero (`anything_staged`) exactly
when the worktree differs from `HEAD`; a commit is created only then.
Returns the repository afterwards and whether a commit was created. -/
def stage_and_commit_model (worktree headc : List DstEntry) : MirrorRepo × Bool :=
  if worktree = headc then (⟨headc⟩, false) else (⟨worktree⟩, true)

/-- One package's sync step (lines 186-200): `delete_contents` empties
the destination, the copy loop repopulates it from upstream, then
`stage_and_commit` commits when anything changed. -/
def syncPackage (upstream : List SrcEntry) (r : MirrorRepo) :
    Except PyErr (MirrorRepo × Bool) :=
  match updatePackage upstream with
  | .error e => .error e
  | .ok work => .ok (stage_and_commit_model work r.head)

/-- The files written into the manifest repository (lines 226-228):
`open(repo_dir / package, "w")` creates one empty — zero-byte —
regular file per package name. -/
def manifestContent (packages : List String) : List DstEntry :=
  packages.map (fun p => .file p "")

/-- The manifest repository's sync (lines 224-229): `delete_contents`,
one empty file per package, then `stage_and_commit`. -/
def syncManifest (packages : List String) (r : MirrorRepo) : MirrorRepo × Bool :=
  stage_and_commit_model (manifestContent packages) r.head

/-- One iteration of the enumeration loop (lines 155-161): `continue`
on a non-directory, `continue` on the reserved name `gnu-elpa-mirror`
("Prevent monkey business."), otherwise append the name. -/
def enumStep (acc : List String) (e : String × Bool) : List String :=
  if !e.2 then acc
  else if e.1 = "gnu-elpa-mirror" then acc
  else acc ++ [e.1]

/-- Package enumeration (lines 154-161): walk the sorted listing of
the archive's `packages` directory — each entry given as (name,
`is_dir()`). -/
def enumeratePackages (listing : List (String × Bool)) : List String :=
  listing.foldl enumStep []

/-- `remove_prefix(prefix, string)` (lines 13-17). -/
def stripPfx (pre s : String) : String :=
  if s.startsWith pre then s.drop pre.length else s

/-- The repository URLs and working-directory paths (lines 104-110). -/
def GNU_ELPA_GIT_URL : String := "https://git.savannah.gnu.org/git/emacs/elpa.git"

def EMACS_GIT_URL : String := "https://git.savannah.gnu.org/git/emacs.git"

def GNU_ELPA_SUBDIR : String := "gnu-elpa"

def EMACS_SUBDIR : String := "gnu-elpa/emacs"

/-- `REPOS_SUBDIR / package` (line 110 with lines 168, 210). -/
def reposDir (package : String) : String := "repos/" ++ package

/-- The clone command built by `clone_git_repo` (lines 33-38): the
`--no-single-branch` flag is only appended inside the
`if shallow:` branch. -/
def cloneCmd (git_url repo_dir : String) (shallow all_branches : Bool) :
    List String :=
  ["git", "clone"] ++
    (if shallow then
      ["--depth", "1"] ++ (if all_branches then ["--no-single-branch"] else [])
    else []) ++
    [git_url, repo_dir]

/-- `die(message)` (lines 22-24): the printed diagnostic and the exit
status `sys.exit(1)` passes to the OS. -/
def dieModel (message : String) : String × Nat :=
  ("gnu_elpa_mirror: " ++ message, 1)

/-- The diagnostic and exit status produced when a clone against a
private (credential-bearing) URL fails (line 43). -/
def cloneFailDiag : String × Nat :=
  dieModel "cloning repository failed (details omitted for security)"

/-- Observable behaviour of the fresh-clone branch of `clone_git_repo`
(lines 32-44): the command issued, and — on `CalledProcessError` —
either `die`'s diagnostic with its exit status, or `none` meaning the
exception is re-raised (also terminating the run, with Python's own
traceback). -/
structure CloneBehavior where
  cmd : List String
  onFailure : Option (String × Nat)
deriving DecidableEq, Repr

/-- The fresh-clone branch of `clone_git_repo` (lines 32-44). -/
def cloneFresh (git_url repo_dir : String)
    (shallow all_branches private_url : Bool) : CloneBehavior :=
  ⟨cloneCmd git_url repo_dir shallow all_branches,
   if private_url then some cloneFailDiag else none⟩

/-- The credential-bearing mirror remote URL (lines 166-167 and
208-209). -/
def mirrorUrl (token package : String) : String :=
  "https://raxod502:" ++ token ++ "@github.com/emacs-straight/" ++
    package ++ ".git"

/-- `s` occurs as a contiguous substring of `t`. -/
def isSubstrOf (s t : String) : Prop :=
  ∃ a b : List Char, t.data = a ++ s.data ++ b

/-- The commit metadata computed once per run (lines 122-136). -/
structure CommitData where
  timestamp : String
  gnu_elpa_commit : String
  emacs_commit : String
deriving DecidableEq, Repr

/-- The commit message format of `stage_and_commit` (lines 91-98). -/
def commitMessage (message : String) (data : CommitData) : String :=
  message ++ "\n\n" ++
    "Timestamp: " ++ data.timestamp ++ "\n" ++
    "GNU ELPA commit: " ++ data.gnu_elpa_commit ++ "\n" ++
    "Emacs commit: " ++ data.emacs_commit

/-- The full argument vector of the commit invocation (lines 86-99),
including the fixed bot identity passed with `-c`. -/
def commitArgv (message : String) (data : CommitData) : List String :=
  ["git",
   "-c", "user.name=GNU ELPA Mirror Bot",
   "-c", "user.email=emacs-devel@gnu.org",
   "commit", "-m", commitMessage message data]

/-- The argument vector of every push (lines 206 and 231). -/
def pushArgv : List String := ["git", "push", "origin", "master"]

/-- One `subprocess.run` call: argument vector, working directory
(`none` when no `cwd=` is passed), and whether `check=True` is passed,
i.e. whether a nonzero exit status raises `CalledProcessError` and
aborts the run. -/
structure Invocation where
  argv : List String
  cwd : Option String
  check : Bool
deriving DecidableEq, Repr

/-- Everything the script reads from the outside world during a run,
keyed by working directory where relevant: the access token, the
command-line arguments, `datetime.now`, `Path.is_dir()`, the stripped
stdout of `git symbolic-ref HEAD`, whether `git show-ref` exits 0, the
stripped stdout of `git rev-parse HEAD`, the sorted listing of the
archive's `packages` directory as (name, `is_dir()`) pairs, and
whether `git diff --cached --quiet` exits nonzero after staging. -/
structure Env where
  token : String
  args : List String
  timestamp : String
  dirExists : String → Bool
  symbolicRef : String → String
  refExists : String → Bool
  revParse : String → String
  pkgListing : List (String × Bool)
  staged : String → Bool

/-- The metadata triple as `mirror` computes it (lines 122-136). -/
def commitData (env : Env) : CommitData :=
  ⟨env.timestamp, env.revParse GNU_ELPA_SUBDIR, env.revParse EMACS_SUBDIR⟩

/-- The `subprocess.run` calls made by `clone_git_repo` (lines 31-59):
a fresh clone when no clone exists; otherwise symbolic-ref, fetch, the
un-checked `show-ref` probe, and — only when the remote-tracking ref
exists — a hard reset to it. -/
def cloneGitRepoTrace (env : Env) (git_url repo_dir : String)
    (shallow all_branches : Bool) : List Invocation :=
  if !env.dirExists repo_dir then
    [⟨cloneCmd git_url repo_dir shallow all_branches, none, true⟩]
  else
    [⟨["git", "symbolic-ref", "HEAD"], some repo_dir, true⟩,
     ⟨["git", "fetch"], some repo_dir, true⟩,
     ⟨["git", "show-ref",
       "refs/remotes/origin/" ++
         stripPfx "refs/heads/" (env.symbolicRef repo_dir)],
      some repo_dir, false⟩] ++
    (if env.refExists repo_dir then
      [⟨["git", "reset", "--hard",
         "refs/remotes/origin/" ++
           stripPfx "refs/heads/" (env.symbolicRef repo_dir)],
        some repo_dir, true⟩]
    else [])

/-- The `subprocess.run` calls made by `stage_and_commit`
(lines 73-101): add, the un-checked staged-changes probe, and the
commit when anything is staged. -/
def stageAndCommitTrace (env : Env) (repo_dir message : String)
    (data : CommitData) : List Invocation :=
  [⟨["git", "add", "--all", "--force"], some repo_dir, true⟩,
   ⟨["git", "diff", "--cached", "--quiet"], some repo_dir, false⟩] ++
  (if env.staged repo_dir then [⟨commitArgv message data, some repo_dir, true⟩]
   else [])

/-- The ordered `subprocess.run` calls of one `mirror(args)` run
(lines 112-232).  GitHub API calls and direct file edits are not
subprocess invocations and do not appear.  The `--skip-mirror-pulls`
guard (line 181) and the `--skip-mirror-pushes` guard (line 201) are
as in the source; the manifest push (lines 230-232) is unguarded. -/
def mirrorTrace (env : Env) : List Invocation :=
  cloneGitRepoTrace env GNU_ELPA_GIT_URL GNU_ELPA_SUBDIR false true ++
  cloneGitRepoTrace env EMACS_GIT_URL EMACS_SUBDIR false false ++
  [⟨["git", "rev-parse", "HEAD"], some GNU_ELPA_SUBDIR, true⟩,
   ⟨["git", "rev-parse", "HEAD"], some EMACS_SUBDIR, true⟩,
   ⟨["git", "checkout", "admin/archive-contents.el"], some GNU_ELPA_SUBDIR,
    false⟩,
   ⟨["make", "externals"], some GNU_ELPA_SUBDIR, true⟩] ++
  ((enumeratePackages env.pkgListing).flatMap (fun p =>
    if "--skip-mirror-pulls" ∈ env.args ∧ env.dirExists (reposDir p) then []
    else cloneGitRepoTrace env (mirrorUrl env.token p) (reposDir p)
      true false)) ++
  ((enumeratePackages env.pkgListing).flatMap (fun p =>
    stageAndCommitTrace env (reposDir p) ("Update " ++ p) (commitData env))) ++
  (if "--skip-mirror-pushes" ∈ env.args then []
   else (enumeratePackages env.pkgListing).map
     (fun p => ⟨pushArgv, some (reposDir p), true⟩)) ++
  cloneGitRepoTrace env (mirrorUrl env.token "gnu-elpa-mirror")
    (reposDir "gnu-elpa-mirror") true false ++
  stageAndCommitTrace env (reposDir "gnu-elpa-mirror") "Update mirror list"
    (commitData env) ++
  [⟨pushArgv, some (reposDir "gnu-elpa-mirror"), true⟩]

/-- A concrete environment: fresh clones everywhere, one package
`foo`, changes staged in every repository, and the skip-pushes flag
passed. -/
def envDemo : Env :=
  ⟨"tok", ["--skip-mirror-pushes"], "2026-01-01 00:00:00",
   fun _ => false, fun _ => "refs/heads/master", fun _ => false,
   fun _ => "cafe", [("foo", true)], fun _ => true⟩

/-- The finitely many shapes a `subprocess.run` invocation of a
`mirror` run can take, with its `check=` policy: everything is checked
except the `show-ref` probe, the staged-changes `diff` probe, and the
`checkout` of the build script. -/
def InvShape (env : Env) (inv : Invocation) : Prop :=
  (∃ u d s a, inv = ⟨cloneCmd u d s a, none, true⟩) ∨
  (∃ d, inv = ⟨["git", "symbolic-ref", "HEAD"], some d, true⟩) ∨
  (∃ d, inv = ⟨["git", "fetch"], some d, true⟩) ∨
  (∃ d r, inv = ⟨["git", "show-ref", r], some d, false⟩) ∨
  (∃ d r, inv = ⟨["git", "reset", "--hard", r], some d, true⟩) ∨
  (∃ d, inv = ⟨["git", "rev-parse", "HEAD"], some d, true⟩) ∨
  inv = ⟨["git", "checkout", "admin/archive-contents.el"], some GNU_ELPA_SUBDIR,
    false⟩ ∨
  inv = ⟨["make", "externals"], some GNU_ELPA_SUBDIR, true⟩ ∨
  (∃ d, inv = ⟨["git", "add", "--all", "--force"], some d, true⟩) ∨
  (∃ d, inv = ⟨["git", "diff", "--cached", "--quiet"], some d, false⟩) ∨
  (∃ d m, inv = ⟨commitArgv m (commitData env), some d, true⟩) ∨
  (∃ d, inv = ⟨pushArgv, some d, true⟩)

/-! ## Theorems -/

theorem enumeratePackages_mem_aux (l : List (String × Bool)) (acc : List String)
    (n : String) :
    n ∈ l.foldl enumStep acc ↔
      n ∈ acc ∨ ((n, true) ∈ l ∧ n ≠ "gnu-elpa-mirror") := by
  induction l generalizing acc with
  | nil => simp
  | cons hd tl ih =>
    obtain ⟨name, isd⟩ := hd
    rw [List.foldl_cons]
    cases isd with
    | false =>
      rw [show enumStep acc (name, false) = acc from rfl, ih]
      constructor
      · rintro (h | ⟨h1, h2⟩)
        · exact Or.inl h
        · exact Or.inr ⟨List.mem_cons_of_mem _ h1, h2⟩
      · rintro (h | ⟨h1, h2⟩)
        · exact Or.inl h
        · rcases List.mem_cons.1 h1 with h1 | h1
          · exact absurd (congrArg Prod.snd h1) (by simp)
          · exact Or.inr ⟨h1, h2⟩
    | true =>
      by_cases hname : name = "gnu-elpa-mirror"
      · rw [show enumStep acc (name, true) = acc by simp [enumStep, hname], ih]
        constructor
        · rintro (h | ⟨h1, h2⟩)
          · exact Or.inl h
          · exact Or.inr ⟨List.mem_cons_of_mem _ h1, h2⟩
        · rintro (h | ⟨h1, h2⟩)
          · exact Or.inl h
          · rcases List.mem_cons.1 h1 with h1 | h1
            · exact absurd ((congrArg Prod.fst h1).trans hname) h2
            · exact Or.inr ⟨h1, h2⟩
      · rw [show enumStep acc (name, true) = acc ++ [name] by
            simp [enumStep, hname], ih]
        constructor
        · rintro (h | ⟨h1, h2⟩)
          · rcases List.mem_append.1 h with h | h
            · exact Or.inl h
            · rw [List.mem_singleton] at h
              subst h
              exact Or.inr ⟨List.mem_cons_self _ _, hname⟩
          · exact Or.inr ⟨List.mem_cons_of_mem _ h1, h2⟩
        · rintro (h | ⟨h1, h2⟩)
          · exact Or.inl (List.mem_append.2 (Or.inl h))
          · rcases List.mem_cons.1 h1 with h1 | h1
            · have hn : n = name := congrArg Prod.fst h1
              subst hn
              exact Or.inl (List.mem_append.2 (Or.inr (List.mem_singleton.2 rfl)))
            · exact Or.inr ⟨h1, h2⟩

/-- C7: the enumerated package list contains exactly the names of the
directory entries of the archive's `packages` directory, minus the
reserved name `gnu-elpa-mirror`; non-directory entries are never
included, and the reserved name is never included even when such a
subdirectory exists on disk. -/
theorem c7_package_enumeration (listing : List (String × Bool)) (n : String) :
    (n ∈ enumeratePackages listing ↔
      ((n, true) ∈ listing ∧ n ≠ "gnu-elpa-mirror")) ∧
    ("gnu-elpa-mirror" ∈ enumeratePackages listing ↔ False) := by
  refine ⟨?_, ?_⟩
  · rw [show enumeratePackages listing = listing.foldl enumStep [] from rfl,
      enumeratePackages_mem_aux]
    simp
  · rw [show enumeratePackages listing = listing.foldl enumStep [] from rfl,
      enumeratePackages_mem_aux]
    simp

/-- C7 witness: evaluated on a listing that contains a directory named
`gnu-elpa-mirror` and a non-directory entry. -/
theorem c7_package_enumeration_witness :
    ("auctex" ∈
        enumeratePackages
          [("auctex", true), ("gnu-elpa-mirror", true), ("notes.txt", false)] ↔
      (("auctex", true) ∈
          [("auctex", true), ("gnu-elpa-mirror", true), ("notes.txt", false)] ∧
        "auctex" ≠ "gnu-elpa-mirror")) ∧
    ("gnu-elpa-mirror" ∈
        enumeratePackages
          [("auctex", true), ("gnu-elpa-mirror", true), ("notes.txt", false)] ↔
      False) :=
  c7_package_enumeration
    [("auctex", true), ("gnu-elpa-mirror", true), ("notes.txt", false)] "auctex"

theorem deleteEntry_ok (present : String → Bool) (e : DEntry) :
    deleteEntry present e = Except.ok () := by
  unfold deleteEntry
  cases h : deleteAction e with
  | skip => rfl
  | rmtree => rfl
  | unlink =>
    unfold tryUnlink
    cases present e.name <;> rfl

theorem mapM_deleteEntry_ok (present : String → Bool) (l : List DEntry) :
    l.mapM (deleteEntry present) = Except.ok (l.map (fun _ => ())) := by
  induction l with
  | nil => rfl
  | cons e tl ih =>
    rw [List.mapM_cons, deleteEntry_ok, ih]
    rfl

/-- C8: `delete_contents` always succeeds and leaves exactly the
`.git` entries of the listing; a symbolic link — even one whose
target is a directory — is unlinked as a single entry rather than
recursed into; an entry already absent when its `unlink` runs is a
no-op instead of an error. -/
theorem c8_delete_contents :
    (∀ (l : List DEntry) (present : String → Bool),
      delete_contents l present =
        Except.ok (l.filter (fun e => e.name == ".git"))) ∧
    (∀ e : DEntry, e.isSymlink = true → e.name ≠ ".git" →
      deleteAction e = DelAction.unlink) ∧
    tryUnlink false = Except.ok () := by
  refine ⟨?_, ?_, rfl⟩
  · intro l present
    unfold delete_contents
    rw [mapM_deleteEntry_ok]
    rfl
  · intro e hsym hname
    unfold deleteAction
    rw [if_neg hname, hsym]
    simp

/-- C8 witness: a destination holding `.git`, a symlink to a
directory, and a file that vanished before its `unlink` ran. -/
theorem c8_delete_contents_witness :
    (delete_contents
        [⟨".git", true, false⟩, ⟨"lnk", true, true⟩, ⟨"gone.el", false, false⟩]
        (fun _ => false) =
      Except.ok [⟨".git", true, false⟩]) ∧
    deleteAction ⟨"lnk", true, true⟩ = DelAction.unlink :=
  ⟨c8_delete_contents.1
      [⟨".git", true, false⟩, ⟨"lnk", true, true⟩, ⟨"gone.el", false, false⟩]
      (fun _ => false),
   c8_delete_contents.2.1 ⟨"lnk", true, true⟩ rfl (by decide)⟩

theorem syncManifest_head (packages : List String) (r : MirrorRepo) :
    (syncManifest packages r).1.head = manifestContent packages := by
  unfold syncManifest stage_and_commit_model
  split
  · next h => exact h.symm
  · rfl

/-- C5: after the manifest repository's sync step its tracked contents
are exactly one zero-byte (empty-content) file per enumerated package
name and nothing else. -/
theorem c5_manifest_contents (packages : List String) (r : MirrorRepo)
    (d : DstEntry) :
    d ∈ (syncManifest packages r).1.head ↔
      ∃ p ∈ packages, d = DstEntry.file p "" := by
  rw [syncManifest_head]
  unfold manifestContent
  simp [eq_comm]

/-- C5 witness: a two-package run starting from a stale manifest. -/
theorem c5_manifest_contents_witness :
    DstEntry.file "auctex" "" ∈
        (syncManifest ["auctex", "vertico"] ⟨[DstEntry.file "old" "x"]⟩).1.head ↔
      ∃ p ∈ ["auctex", "vertico"], DstEntry.file "auctex" "" = DstEntry.file p "" :=
  c5_manifest_contents ["auctex", "vertico"] ⟨[DstEntry.file "old" "x"]⟩
    (DstEntry.file "auctex" "")

/-- C4: a second full sync against unchanged upstream creates no
commit: for a package mirror, re-running `syncPackage` on the state a
first run produced reports nothing staged (commit flag `false`) and
leaves the state unchanged, and likewise for the manifest
repository. -/
theorem stage_and_commit_model_idem (work headc : List DstEntry) :
    stage_and_commit_model work ((stage_and_commit_model work headc).1).head =
      ((stage_and_commit_model work headc).1, false) := by
  by_cases h : work = headc
  · simp [stage_and_commit_model, h]
  · simp [stage_and_commit_model, h]

theorem c4_second_run_idempotent :
    (∀ (up : List SrcEntry) (r r' : MirrorRepo) (b : Bool),
      syncPackage up r = Except.ok (r', b) →
      syncPackage up r' = Except.ok (r', false)) ∧
    (∀ (ps : List String) (m : MirrorRepo),
      syncManifest ps (syncManifest ps m).1 = ((syncManifest ps m).1, false)) := by
  constructor
  · intro up r r' b h
    unfold syncPackage at h ⊢
    cases hup : updatePackage up with
    | error e => rw [hup] at h; cases h
    | ok work =>
      rw [hup] at h
      have h' : Except.ok (stage_and_commit_model work r.head) =
          (Except.ok (r', b) : Except PyErr (MirrorRepo × Bool)) := h
      injection h' with h'
      have hidem := stage_and_commit_model_idem work r.head
      rw [h'] at hidem
      show Except.ok (stage_and_commit_model work r'.head) =
        Except.ok (r', false)
      exact congrArg Except.ok hidem
  · intro ps m
    exact stage_and_commit_model_idem (manifestContent ps) m.head

/-- C4 witness: first run commits the new file, second run stages
nothing. -/
theorem c4_second_run_idempotent_witness :
    syncPackage [SrcEntry.file "a.el" "x"] ⟨[DstEntry.file "a.el" "x"]⟩ =
      Except.ok (⟨[DstEntry.file "a.el" "x"]⟩, false) :=
  c4_second_run_idempotent.1 [SrcEntry.file "a.el" "x"] ⟨[]⟩
    ⟨[DstEntry.file "a.el" "x"]⟩ true rfl

theorem mapM_copyEntry_spec (l : List SrcEntry) (ds : List DstEntry)
    (h : l.mapM copyEntry = Except.ok ds) :
    ds.map dstName = l.map srcName ∧
    (∀ n t c, SrcEntry.linkFile n t c ∈ l → DstEntry.file n c ∈ ds) ∧
    (∀ d ∈ ds, isSymlinkDst d = false) := by
  induction l generalizing ds with
  | nil =>
    rw [List.mapM_nil] at h
    injection h with h
    subst h
    exact ⟨rfl, by simp, by simp⟩
  | cons e tl ih =>
    rw [List.mapM_cons] at h
    cases he : copyEntry e with
    | error err => rw [he] at h; cases h
    | ok d =>
      rw [he] at h
      cases htl : tl.mapM copyEntry with
      | error err =>
        rw [htl] at h
        cases h
      | ok ds' =>
        rw [htl] at h
        have hds : d :: ds' = ds := by
          have : (Except.ok (d :: ds') : Except PyErr (List DstEntry)) =
              Except.ok ds := h
          injection this
        subst hds
        obtain ⟨ih1, ih2, ih3⟩ := ih ds' htl
        refine ⟨?_, ?_, ?_⟩
        · rw [List.map_cons, List.map_cons, ih1]
          have hname : dstName d = srcName e := by
            cases e with
            | file n c => cases he; rfl
            | dir n sub => cases he; rfl
            | linkFile n t c => cases he; rfl
            | linkDir n t sub => cases he
            | linkBroken n t => cases he
          rw [hname]
        · intro n t c hmem
          rcases List.mem_cons.1 hmem with hmem | hmem
          · subst hmem
            cases he
            exact List.mem_cons_self _ _
          · exact List.mem_cons_of_mem _ (ih2 n t c hmem)
        · intro d' hd'
          rcases List.mem_cons.1 hd' with hd' | hd'
          · subst hd'
            cases e with
            | file n c => cases he; rfl
            | dir n sub => cases he; rfl
            | linkFile n t c => cases he; rfl
            | linkDir n t sub => cases he
            | linkBroken n t => cases he
          · exact ih3 d' hd'

/-- C1 (amended): after the sync step the destination's entry names
(excluding `.git` on both sides) are exactly the upstream entry names,
but an upstream symbolic link is not preserved as a link: a link to a
regular file is materialised as a regular file holding the target's
content, and no destination entry is ever a symbolic link.  (An
upstream symlink to a directory or a broken link makes the copy raise,
so a successful sync contains neither.) -/
theorem c1_sync_resolves_symlinks (up : List SrcEntry) (ds : List DstEntry)
    (h : updatePackage up = Except.ok ds) :
    ds.map dstName =
      (up.filter (fun e => srcName e != ".git")).map srcName ∧
    (∀ n t c, SrcEntry.linkFile n t c ∈ up → n ≠ ".git" →
      DstEntry.file n c ∈ ds) ∧
    (∀ d ∈ ds, isSymlinkDst d = false) := by
  obtain ⟨h1, h2, h3⟩ :=
    mapM_copyEntry_spec (up.filter (fun e => srcName e != ".git")) ds h
  refine ⟨h1, ?_, h3⟩
  intro n t c hmem hname
  refine h2 n t c (List.mem_filter.2 ⟨hmem, ?_⟩)
  simpa using hname

/-- C1 counterexample: for an upstream directory holding exactly one
symbolic link to a regular file, the sync succeeds but the destination
holds a regular file with the target's content — no destination entry
is a symbolic link, refuting "present in the destination as a symbolic
link (not resolved to its target's contents)". -/
theorem c1_sync_resolves_symlinks_counterexample :
    updatePackage [SrcEntry.linkFile "history.el" "target.el" "body"] =
      Except.ok [DstEntry.file "history.el" "body"] ∧
    ([DstEntry.file "history.el" "body"].all
      (fun d => !(isSymlinkDst d))) = true := by
  constructor
  · rfl
  · rfl

/-- C1 witness: a mixed upstream listing with a regular file, a
directory containing an internal symlink, a top-level symlink, and a
`.git` directory to skip. -/
theorem c1_sync_resolves_symlinks_witness :
    ([DstEntry.file "a.el" "x",
      DstEntry.dir "doc" [(["manual.txt"], Leaf.file "m")],
      DstEntry.file "lnk.el" "y"].map dstName =
      ([SrcEntry.file "a.el" "x",
        SrcEntry.dir "doc" [(["manual.txt"], Leaf.linkFile "t" "m")],
        SrcEntry.linkFile "lnk.el" "t2" "y",
        SrcEntry.dir ".git" []].filter
          (fun e => srcName e != ".git")).map srcName) ∧
    (∀ n t c,
      SrcEntry.linkFile n t c ∈
        [SrcEntry.file "a.el" "x",
         SrcEntry.dir "doc" [(["manual.txt"], Leaf.linkFile "t" "m")],
         SrcEntry.linkFile "lnk.el" "t2" "y",
         SrcEntry.dir ".git" []] → n ≠ ".git" →
      DstEntry.file n c ∈
        [DstEntry.file "a.el" "x",
         DstEntry.dir "doc" [(["manual.txt"], Leaf.file "m")],
         DstEntry.file "lnk.el" "y"]) ∧
    (∀ d ∈
        [DstEntry.file "a.el" "x",
         DstEntry.dir "doc" [(["manual.txt"], Leaf.file "m")],
         DstEntry.file "lnk.el" "y"],
      isSymlinkDst d = false) :=
  c1_sync_resolves_symlinks
    [SrcEntry.file "a.el" "x",
     SrcEntry.dir "doc" [(["manual.txt"], Leaf.linkFile "t" "m")],
     SrcEntry.linkFile "lnk.el" "t2" "y",
     SrcEntry.dir ".git" []]
    [DstEntry.file "a.el" "x",
     DstEntry.dir "doc" [(["manual.txt"], Leaf.file "m")],
     DstEntry.file "lnk.el" "y"]
    rfl

theorem isSubstrOf_mem (s t : String) (h : isSubstrOf s t) :
    ∀ c ∈ s.data, c ∈ t.data := by
  obtain ⟨a, b, hab⟩ := h
  intro c hc
  rw [hab]
  exact List.mem_append.2 (Or.inl (List.mem_append.2 (Or.inr hc)))

/-- C9: when a clone against the credential-bearing mirror URL fails,
the run dies with exit status 1 and a diagnostic that is one fixed
string — the same for every credential and URL — and the raw URL is
not a substring of that diagnostic. -/
theorem c9_credential_redaction (token package u d : String) (s a : Bool) :
    (cloneFresh u d s a true).onFailure = some cloneFailDiag ∧
    cloneFailDiag.2 = 1 ∧
    ¬ isSubstrOf (mirrorUrl token package) cloneFailDiag.1 := by
  refine ⟨rfl, rfl, ?_⟩
  intro h
  have hat : '@' ∈ (mirrorUrl token package).data := by
    rw [show mirrorUrl token package =
        "https://raxod502:" ++ token ++ "@github.com/emacs-straight/" ++
          package ++ ".git" from rfl]
    rw [String.data_append, String.data_append, String.data_append,
      String.data_append]
    refine List.mem_append.2 (Or.inl ?_)
    refine List.mem_append.2 (Or.inl ?_)
    refine List.mem_append.2 (Or.inr ?_)
    decide
  have := isSubstrOf_mem _ _ h '@' hat
  revert this
  decide

/-- C9 witness: instantiated at a concrete token and package. -/
theorem c9_credential_redaction_witness :
    (cloneFresh "u" "d" true false true).onFailure = some cloneFailDiag ∧
    cloneFailDiag.2 = 1 ∧
    ¬ isSubstrOf (mirrorUrl "hunter2" "auctex") cloneFailDiag.1 :=
  c9_credential_redaction "hunter2" "auctex" "u" "d" true false

/-- C10: with `shallow=False` the `all_branches` option is dead — the
clone behaviour (command issued and failure handling) is identical for
`all_branches=True` and `all_branches=False`, for every URL, path and
privacy flag — and hence the GNU ELPA archive clone, which `mirror`
issues first with `shallow=False, all_branches=True`, is exactly the
single-branch clone command. -/
theorem c10_all_branches_dead (u d : String) (p : Bool) (env : Env)
    (hfresh : env.dirExists GNU_ELPA_SUBDIR = false) :
    cloneFresh u d false true p = cloneFresh u d false false p ∧
    (mirrorTrace env).head? =
      some ⟨cloneCmd GNU_ELPA_GIT_URL GNU_ELPA_SUBDIR false false, none, true⟩ := by
  constructor
  · rfl
  · rw [show mirrorTrace env =
        cloneGitRepoTrace env GNU_ELPA_GIT_URL GNU_ELPA_SUBDIR false true ++
          (cloneGitRepoTrace env EMACS_GIT_URL EMACS_SUBDIR false false ++
            ([⟨["git", "rev-parse", "HEAD"], some GNU_ELPA_SUBDIR, true⟩,
              ⟨["git", "rev-parse", "HEAD"], some EMACS_SUBDIR, true⟩,
              ⟨["git", "checkout", "admin/archive-contents.el"],
                some GNU_ELPA_SUBDIR, false⟩,
              ⟨["make", "externals"], some GNU_ELPA_SUBDIR, true⟩] ++
              (((enumeratePackages env.pkgListing).flatMap (fun p =>
                if "--skip-mirror-pulls" ∈ env.args ∧
                    env.dirExists (reposDir p) then []
                else cloneGitRepoTrace env (mirrorUrl env.token p) (reposDir p)
                  true false)) ++
                (((enumeratePackages env.pkgListing).flatMap (fun p =>
                  stageAndCommitTrace env (reposDir p) ("Update " ++ p)
                    (commitData env))) ++
                  ((if "--skip-mirror-pushes" ∈ env.args then []
                    else (enumeratePackages env.pkgListing).map
                      (fun p => ⟨pushArgv, some (reposDir p), true⟩)) ++
                    (cloneGitRepoTrace env (mirrorUrl env.token "gnu-elpa-mirror")
                      (reposDir "gnu-elpa-mirror") true false ++
                      (stageAndCommitTrace env (reposDir "gnu-elpa-mirror")
                        "Update mirror list" (commitData env) ++
                        [⟨pushArgv, some (reposDir "gnu-elpa-mirror"),
                          true⟩]))))))) from by
      simp [mirrorTrace, List.append_assoc]]
    rw [show cloneGitRepoTrace env GNU_ELPA_GIT_URL GNU_ELPA_SUBDIR false true =
        [⟨cloneCmd GNU_ELPA_GIT_URL GNU_ELPA_SUBDIR false true, none, true⟩] from by
      unfold cloneGitRepoTrace
      rw [hfresh]
      rfl]
    rfl

/-- C10 witness: the head of the demo run's trace. -/
theorem c10_all_branches_dead_witness :
    cloneFresh "u" "d" false true true = cloneFresh "u" "d" false false true ∧
    (mirrorTrace envDemo).head? =
      some ⟨cloneCmd GNU_ELPA_GIT_URL GNU_ELPA_SUBDIR false false, none, true⟩ :=
  c10_all_branches_dead "u" "d" true envDemo rfl

theorem cloneCmd_getD1 (u d : String) (s a : Bool) :
    (cloneCmd u d s a).getD 1 "" = "clone" := by
  cases s <;> cases a <;> rfl

theorem shape_cloneTrace (env : Env) (u d : String) (s a : Bool)
    (inv : Invocation) (h : inv ∈ cloneGitRepoTrace env u d s a) :
    InvShape env inv := by
  unfold cloneGitRepoTrace at h
  split at h
  · rw [List.mem_singleton] at h
    subst h
    exact Or.inl ⟨u, d, s, a, rfl⟩
  · rcases List.mem_append.1 h with h | h
    · rcases List.mem_cons.1 h with h | h
      · subst h
        exact Or.inr (Or.inl ⟨d, rfl⟩)
      rcases List.mem_cons.1 h with h | h
      · subst h
        exact Or.inr (Or.inr (Or.inl ⟨d, rfl⟩))
      rw [List.mem_singleton] at h
      subst h
      exact Or.inr (Or.inr (Or.inr (Or.inl ⟨d, _, rfl⟩)))
    · split at h
      · rw [List.mem_singleton] at h
        subst h
        exact Or.inr (Or.inr (Or.inr (Or.inr (Or.inl ⟨d, _, rfl⟩))))
      · cases h

theorem shape_sacTrace (env : Env) (d m : String) (inv : Invocation)
    (h : inv ∈ stageAndCommitTrace env d m (commitData env)) :
    InvShape env inv := by
  unfold stageAndCommitTrace at h
  rcases List.mem_append.1 h with h | h
  · rcases List.mem_cons.1 h with h | h
    · subst h
      right; right; right; right; right; right; right; right; left
      exact ⟨d, rfl⟩
    rw [List.mem_singleton] at h
    subst h
    right; right; right; right; right; right; right; right; right; left
    exact ⟨d, rfl⟩
  · split at h
    · rw [List.mem_singleton] at h
      subst h
      right; right; right; right; right; right; right; right; right; right; left
      exact ⟨d, m, rfl⟩
    · cases h

theorem shape_mirrorTrace (env : Env) (inv : Invocation)
    (h : inv ∈ mirrorTrace env) : InvShape env inv := by
  unfold mirrorTrace at h
  rcases List.mem_append.1 h with h | h
  · rcases List.mem_append.1 h with h | h
    · rcases List.mem_append.1 h with h | h
      · rcases List.mem_append.1 h with h | h
        · rcases List.mem_append.1 h with h | h
          · rcases List.mem_append.1 h with h | h
            · rcases List.mem_append.1 h with h | h
              · rcases List.mem_append.1 h with h | h
                · exact shape_cloneTrace env _ _ _ _ inv h
                · exact shape_cloneTrace env _ _ _ _ inv h
              · rcases List.mem_cons.1 h with h | h
                · subst h
                  right; right; right; right; right; left
                  exact ⟨GNU_ELPA_SUBDIR, rfl⟩
                rcases List.mem_cons.1 h with h | h
                · subst h
                  right; right; right; right; right; left
                  exact ⟨EMACS_SUBDIR, rfl⟩
                rcases List.mem_cons.1 h with h | h
                · subst h
                  right; right; right; right; right; right; left
                  rfl
                rw [List.mem_singleton] at h
                subst h
                right; right; right; right; right; right; right; left
                rfl
            · rcases List.mem_flatMap.1 h with ⟨p, hp, h⟩
              split at h
              · cases h
              · exact shape_cloneTrace env _ _ _ _ inv h
          · rcases List.mem_flatMap.1 h with ⟨p, hp, h⟩
            exact shape_sacTrace env _ _ inv h
        · split at h
          · cases h
          · rcases List.mem_map.1 h with ⟨p, hp, hinv⟩
            subst hinv
            right; right; right; right; right; right; right; right; right
            right; right
            exact ⟨reposDir p, rfl⟩
      · exact shape_cloneTrace env _ _ _ _ inv h
    · exact shape_sacTrace env _ _ inv h
  · rw [List.mem_singleton] at h
    subst h
    right; right; right; right; right; right; right; right; right; right; right
    exact ⟨reposDir "gnu-elpa-mirror", rfl⟩

/-- C3 (amended): a version-control invocation of the run aborts the
whole run on a nonzero exit status except in exactly three cases: the
staged-changes check (`git diff --cached --quiet`) and the
remote-tracking-ref probe (`git show-ref <ref>`), whose exit statuses
are read as answers, and the build-script restore
(`git checkout admin/archive-contents.el`), whose exit status is
ignored outright. -/
theorem c3_check_policy (env : Env) (inv : Invocation)
    (h : inv ∈ mirrorTrace env) (hgit : inv.argv.getD 0 "" = "git") :
    inv.check = false ↔
      (inv.argv = ["git", "diff", "--cached", "--quiet"] ∨
       (∃ r, inv.argv = ["git", "show-ref", r]) ∨
       inv.argv = ["git", "checkout", "admin/archive-contents.el"]) := by
  rcases shape_mirrorTrace env inv h with
    ⟨u, d, s, a, rfl⟩ | ⟨d, rfl⟩ | ⟨d, rfl⟩ | ⟨d, r, rfl⟩ | ⟨d, r, rfl⟩ |
    ⟨d, rfl⟩ | rfl | rfl | ⟨d, rfl⟩ | ⟨d, rfl⟩ | ⟨d, m, rfl⟩ | ⟨d, rfl⟩
  · refine iff_of_false (by simp) ?_
    rintro (hc | ⟨r, hc⟩ | hc) <;> (cases s <;> cases a <;> simp [cloneCmd] at hc)
  · refine iff_of_false (by simp) ?_
    rintro (hc | ⟨r, hc⟩ | hc) <;> simp at hc
  · refine iff_of_false (by simp) ?_
    rintro (hc | ⟨r, hc⟩ | hc) <;> simp at hc
  · exact iff_of_true rfl (Or.inr (Or.inl ⟨r, rfl⟩))
  · refine iff_of_false (by simp) ?_
    rintro (hc | ⟨r', hc⟩ | hc) <;> simp at hc
  · refine iff_of_false (by simp) ?_
    rintro (hc | ⟨r, hc⟩ | hc) <;> simp at hc
  · exact iff_of_true rfl (Or.inr (Or.inr rfl))
  · exact absurd hgit (by decide)
  · refine iff_of_false (by simp) ?_
    rintro (hc | ⟨r, hc⟩ | hc) <;> simp at hc
  · exact iff_of_true rfl (Or.inl rfl)
  · refine iff_of_false (by simp) ?_
    rintro (hc | ⟨r, hc⟩ | hc) <;> simp [commitArgv] at hc
  · refine iff_of_false (by simp) ?_
    rintro (hc | ⟨r, hc⟩ | hc) <;> simp [pushArgv] at hc

/-- C3 counterexample: the build-script checkout is a git invocation
of the run that does not abort on nonzero exit yet is not the
staged-changes check — so the staged-changes check is not the only
exception. -/
theorem c3_check_policy_counterexample :
    (⟨["git", "checkout", "admin/archive-contents.el"], some GNU_ELPA_SUBDIR,
        false⟩ : Invocation) ∈ mirrorTrace envDemo ∧
    (⟨["git", "checkout", "admin/archive-contents.el"], some GNU_ELPA_SUBDIR,
        false⟩ : Invocation).check = false ∧
    ["git", "checkout", "admin/archive-contents.el"] ≠
      ["git", "diff", "--cached", "--quiet"] := by
  refine ⟨by decide, rfl, by decide⟩

/-- C3 witness: the staged-changes probe of package `foo` in the demo
run. -/
theorem c3_check_policy_witness :
    ((⟨["git", "diff", "--cached", "--quiet"], some (reposDir "foo"), false⟩ :
        Invocation).check = false ↔
      ((⟨["git", "diff", "--cached", "--quiet"], some (reposDir "foo"),
          false⟩ : Invocation).argv = ["git", "diff", "--cached", "--quiet"] ∨
       (∃ r, (⟨["git", "diff", "--cached", "--quiet"], some (reposDir "foo"),
          false⟩ : Invocation).argv = ["git", "show-ref", r]) ∨
       (⟨["git", "diff", "--cached", "--quiet"], some (reposDir "foo"),
          false⟩ : Invocation).argv =
         ["git", "checkout", "admin/archive-contents.el"])) :=
  c3_check_policy envDemo _ (by decide) (by decide)

theorem cloneTrace_no_push (env : Env) (u d : String) (s a : Bool)
    (inv : Invocation) (h : inv ∈ cloneGitRepoTrace env u d s a) :
    inv.argv ≠ pushArgv := by
  unfold cloneGitRepoTrace at h
  split at h
  · rw [List.mem_singleton] at h
    subst h
    intro hc
    cases s <;> cases a <;> simp [cloneCmd, pushArgv] at hc
  · rcases List.mem_append.1 h with h | h
    · rcases List.mem_cons.1 h with h | h
      · subst h; simp [pushArgv]
      rcases List.mem_cons.1 h with h | h
      · subst h; simp [pushArgv]
      rw [List.mem_singleton] at h
      subst h; simp [pushArgv]
    · split at h
      · rw [List.mem_singleton] at h
        subst h; simp [pushArgv]
      · cases h

theorem sacTrace_no_push (env : Env) (d m : String) (data : CommitData)
    (inv : Invocation) (h : inv ∈ stageAndCommitTrace env d m data) :
    inv.argv ≠ pushArgv := by
  unfold stageAndCommitTrace at h
  rcases List.mem_append.1 h with h | h
  · rcases List.mem_cons.1 h with h | h
    · subst h; simp [pushArgv]
    rw [List.mem_singleton] at h
    subst h; simp [pushArgv]
  · split at h
    · rw [List.mem_singleton] at h
      subst h; simp [commitArgv, pushArgv]
    · cases h

/-- C2 (amended): with the `--skip-mirror-pushes` flag the run issues
no push for any package mirror repository, but the manifest (mirror
list) repository is still pushed: the only push invocation in the
trace is the manifest's, and it is always present. -/
theorem c2_skip_pushes (env : Env)
    (hskip : "--skip-mirror-pushes" ∈ env.args) :
    (∀ inv ∈ mirrorTrace env, inv.argv = pushArgv →
      inv = ⟨pushArgv, some (reposDir "gnu-elpa-mirror"), true⟩) ∧
    (⟨pushArgv, some (reposDir "gnu-elpa-mirror"), true⟩ : Invocation) ∈
      mirrorTrace env := by
  constructor
  · intro inv h hpush
    unfold mirrorTrace at h
    rcases List.mem_append.1 h with h | h
    · rcases List.mem_append.1 h with h | h
      · rcases List.mem_append.1 h with h | h
        · rcases List.mem_append.1 h with h | h
          · rcases List.mem_append.1 h with h | h
            · rcases List.mem_append.1 h with h | h
              · rcases List.mem_append.1 h with h | h
                · rcases List.mem_append.1 h with h | h
                  · exact absurd hpush (cloneTrace_no_push env _ _ _ _ inv h)
                  · exact absurd hpush (cloneTrace_no_push env _ _ _ _ inv h)
                · rcases List.mem_cons.1 h with h | h
                  · subst h; simp [pushArgv] at hpush
                  rcases List.mem_cons.1 h with h | h
                  · subst h; simp [pushArgv] at hpush
                  rcases List.mem_cons.1 h with h | h
                  · subst h; simp [pushArgv] at hpush
                  rw [List.mem_singleton] at h
                  subst h; simp [pushArgv] at hpush
              · rcases List.mem_flatMap.1 h with ⟨p, hp, h⟩
                split at h
                · cases h
                · exact absurd hpush (cloneTrace_no_push env _ _ _ _ inv h)
            · rcases List.mem_flatMap.1 h with ⟨p, hp, h⟩
              exact absurd hpush (sacTrace_no_push env _ _ _ inv h)
          · rw [if_pos hskip] at h
            cases h
        · exact absurd hpush (cloneTrace_no_push env _ _ _ _ inv h)
      · exact absurd hpush (sacTrace_no_push env _ _ _ inv h)
    · rw [List.mem_singleton] at h
      exact h
  · unfold mirrorTrace
    exact List.mem_append.2 (Or.inr (List.mem_singleton.2 rfl))

/-- C2 counterexample: in a run invoked with `--skip-mirror-pushes`,
the trace still contains a push invocation — the manifest
repository's — so the flag does not suppress every push. -/
theorem c2_skip_pushes_counterexample :
    "--skip-mirror-pushes" ∈ envDemo.args ∧
    (⟨pushArgv, some (reposDir "gnu-elpa-mirror"), true⟩ : Invocation) ∈
      mirrorTrace envDemo := by
  exact ⟨by decide, by decide⟩

/-- C2 witness: the amended statement instantiated on the demo run. -/
theorem c2_skip_pushes_witness :
    (⟨pushArgv, some (reposDir "gnu-elpa-mirror"), true⟩ : Invocation) ∈
      mirrorTrace envDemo :=
  (c2_skip_pushes envDemo (by decide)).2

/-- C6: every commit invocation of a run (identified by the `-c`
configuration override in second position, which no other invocation
of the trace carries) uses the fixed bot identity and a message of
the exact shape `<summary>, blank line, Timestamp / GNU ELPA commit /
Emacs commit`, all built from the single metadata triple computed once
for the run; and the commit is checked (a failure aborts the run). -/
theorem c6_commit_shape (env : Env) (inv : Invocation)
    (h : inv ∈ mirrorTrace env) (hc : inv.argv.getD 1 "" = "-c") :
    ∃ m, inv.argv = commitArgv m (commitData env) ∧ inv.check = true := by
  rcases shape_mirrorTrace env inv h with
    ⟨u, d, s, a, rfl⟩ | ⟨d, rfl⟩ | ⟨d, rfl⟩ | ⟨d, r, rfl⟩ | ⟨d, r, rfl⟩ |
    ⟨d, rfl⟩ | rfl | rfl | ⟨d, rfl⟩ | ⟨d, rfl⟩ | ⟨d, m, rfl⟩ | ⟨d, rfl⟩
  · cases s <;> cases a <;> simp [cloneCmd] at hc
  · simp at hc
  · simp at hc
  · simp at hc
  · simp at hc
  · simp at hc
  · simp at hc
  · simp at hc
  · simp at hc
  · simp at hc
  · exact ⟨m, rfl, rfl⟩
  · simp [pushArgv] at hc

/-- C6 witness: the commit for package `foo` in the demo run. -/
theorem c6_commit_shape_witness :
    ∃ m,
      (⟨commitArgv "Update foo" (commitData envDemo), some (reposDir "foo"),
          true⟩ : Invocation).argv = commitArgv m (commitData envDemo) ∧
      (⟨commitArgv "Update foo" (commitData envDemo), some (reposDir "foo"),
          true⟩ : Invocation).check = true :=
  c6_commit_shape envDemo _ (by decide) (by decide)

end GnuElpaMirror
